import Mathlib

/-!
Shallow embedding of the BaselineGuard feature-detection engine
(`src/enhancedFeatureDetector.ts`, `src/utils/enhancedPatterns.ts`).

Conventions of the embedding:
* JavaScript numbers that carry confidences are embedded as `ℚ`.
* `vscode.Range`'s `end` field is renamed `stop` (Lean keyword).
* A JavaScript `Map` is embedded as an insertion-ordered association list
  with `Map.get` / `Map.set` / `Map.delete` semantics (`mapGet`, `mapSet`,
  `mapDelete`); `Map.keys().next().value` is `head?`.
* The JS regular-expression engine and the TypeScript parser are external
  to the repository; they are parameters (`RegexEngine`,
  `parse : String → Except String TSNode`) of the detector, exactly like
  the injected feature-lookup service (`getFeature`).
* The `while ((match = pattern.exec(text)) !== null)` loop of
  `detectWithRegex` can diverge, so it is embedded fuelled
  (`scanRuleLoop`); `none` models a run that consumed all fuel
  (in particular, for states the loop can never leave, `none` for every
  fuel models genuine non-termination).
* `document.positionAt` / `document.lineAt` are embedded counting
  line breaks as `'\n'`.
-/

namespace BaselineGuard

/-- `vscode.Position`. -/
structure Position where
  line : Nat
  character : Nat
deriving DecidableEq, Repr

/-- `vscode.Range`; the source's `end` field is named `stop` here. -/
structure Range where
  start : Position
  stop : Position
deriving DecidableEq, Repr

/-- `vscode.DiagnosticSeverity`. -/
inductive DiagnosticSeverity where
  | Error
  | Warning
  | Information
  | Hint
deriving DecidableEq, Repr

/-- The part of `WebFeature` (webStatusApi.ts) the detector reads:
`feature_id`, `name` and `baseline?.status`. -/
structure WebFeature where
  feature_id : String
  name : String
  baselineStatus : Option String
deriving DecidableEq, Repr

/-- The `ts.SyntaxKind` values used by the pattern registry. -/
inductive SyntaxKind where
  | NewExpression
  | CallExpression
  | QuestionDotToken
deriving DecidableEq, Repr

/-- `ASTPattern` (enhancedPatterns.ts). -/
structure ASTPattern where
  nodeType : SyntaxKind
  propertyName : Option String := none
  methodName : Option String := none
  objectName : Option String := none
deriving DecidableEq, Repr

/-- The `category` field of `PatternInfo`. -/
inductive Category where
  | html
  | css
  | javascript
  | api
deriving DecidableEq, Repr

/-- `PatternInfo` (enhancedPatterns.ts). The `pattern` field keeps the
regex literal's source text (its semantics live in the `RegexEngine`
parameter of the text matcher). -/
structure PatternInfo where
  featureId : String
  pattern : String
  astPattern : Option ASTPattern := none
  language : List String
  confidence : ℚ
  contextRequired : Bool := false
  category : Category
  description : String
deriving DecidableEq, Repr

/-! ## String helpers (embedding the JS string operations used by the detector) -/

/-- Characters the JS `\s` class / `String.prototype.trim` treat as space
(the subset relevant here). -/
def jsIsSpace (c : Char) : Bool :=
  c = ' ' || c = '\t' || c = '\n' || c = '\r' || c = '\x0b' || c = '\x0c'

/-- Does `sub` occur as a prefix of `s`? (`List Char` version). -/
def startsWithList : List Char → List Char → Bool
  | [], _ => true
  | _ :: _, [] => false
  | a :: as, b :: bs => a = b && startsWithList as bs

/-- Does `sub` occur anywhere inside `s`? Embeds `String.prototype.includes`. -/
def containsList (sub : List Char) : List Char → Bool
  | [] => startsWithList sub []
  | c :: cs => startsWithList sub (c :: cs) || containsList sub cs

/-- `s.includes(sub)`. -/
def strIncludes (s sub : String) : Bool :=
  containsList sub.toList s.toList

/-- `s.startsWith(sub)`. -/
def strStartsWith (s sub : String) : Bool :=
  startsWithList sub.toList s.toList

/-- `s.trim()`. -/
def strTrim (s : String) : String :=
  String.mk (((s.toList.dropWhile jsIsSpace).reverse.dropWhile jsIsSpace).reverse)

/-- `text.substring(a, b)` (with `a ≤ b`, as in every call site). -/
def jsSubstring (text : String) (a b : Nat) : String :=
  String.mk ((text.toList.take b).drop a)

/-- The lines of the document, as split by `'\n'`
(`document.lineAt(i).text` is `docLines text |>.getD i ""`). -/
def docLines (text : String) : List String :=
  text.splitOn "\n"

/-- `document.lineAt(line).text`. -/
def lineAt (text : String) (line : Nat) : String :=
  (docLines text).getD line ""

/-- The line of `document.positionAt(off)`: line breaks before offset `off`. -/
def lineOfOffset (text : String) (off : Nat) : Nat :=
  ((text.toList.take off).filter (fun c => c = '\n')).length

/-- The character of `document.positionAt(off)`: distance to the last line
break before offset `off`. -/
def charOfOffset (text : String) (off : Nat) : Nat :=
  ((text.toList.take off).reverse.takeWhile (fun c => c ≠ '\n')).length

/-- `document.positionAt(off)`. -/
def positionAt (text : String) (off : Nat) : Position :=
  ⟨lineOfOffset text off, charOfOffset text off⟩

/-- The test of the regex literal `/\?[^.]/` against a line: some `'?'` is
immediately followed by a character other than `'.'`. -/
def hasQuestionNonDot : List Char → Bool
  | c :: c2 :: rest => (c = '?' && c2 ≠ '.') || hasQuestionNonDot (c2 :: rest)
  | _ => false

/-- Does `"class"` followed by at least one space character start here?
(one candidate position of the regex literal `/class\s+/`). -/
def classSpaceAt (cs : List Char) : Bool :=
  startsWithList ['c', 'l', 'a', 's', 's'] cs &&
    (match cs.drop 5 with
     | c :: _ => jsIsSpace c
     | [] => false)

/-- The test of the regex literal `/class\s+/` against a line. -/
def testClassSpace : List Char → Bool
  | [] => false
  | c :: cs => classSpaceAt (c :: cs) || testClassSpace cs

/-! ## The pattern registry (`ENHANCED_WEB_PATTERNS`, enhancedPatterns.ts).
Regex literals are kept as their source text (with `/` delimiters and
flags); literal braces are written with `\x7b` / `\x7d` escapes and the
apostrophe with `\x27`. -/

def ENHANCED_WEB_PATTERNS : List PatternInfo := [
  { featureId := "container-queries",
    pattern := "/@container\\s*[^\x7b]*\\\x7b/gi",
    language := ["css", "scss", "less", "stylus"],
    confidence := 0.95, category := .css,
    description := "CSS Container Queries" },
  { featureId := "content-visibility",
    pattern := "/content-visibility\\s*:/gi",
    language := ["css", "scss", "less", "stylus"],
    confidence := 1.0, category := .css,
    description := "CSS content-visibility property" },
  { featureId := "css-cascade-layers",
    pattern := "/@layer\\s+/gi",
    language := ["css", "scss", "less"],
    confidence := 0.95, category := .css,
    description := "CSS Cascade Layers" },
  { featureId := "has",
    pattern := "/:has\\s*\\(/gi",
    language := ["css", "scss", "less", "stylus"],
    confidence := 0.9, category := .css,
    description := "CSS :has() pseudo-class" },
  { featureId := "grid",
    pattern := "/display\\s*:\\s*grid|grid-template-columns|grid-template-rows|grid-area/gi",
    language := ["css", "scss", "less", "stylus"],
    confidence := 0.85, category := .css,
    description := "CSS Grid Layout" },
  { featureId := "flexbox",
    pattern := "/display\\s*:\\s*flex|flex-direction|flex-wrap|justify-content/gi",
    language := ["css", "scss", "less", "stylus"],
    confidence := 0.8, category := .css,
    description := "CSS Flexbox" },
  { featureId := "subgrid",
    pattern := "/grid-template-(columns|rows)\\s*:\\s*subgrid/gi",
    language := ["css", "scss", "less"],
    confidence := 0.95, category := .css,
    description := "CSS Subgrid" },
  { featureId := "backdrop-filter",
    pattern := "/backdrop-filter\\s*:/gi",
    language := ["css", "scss", "less", "stylus"],
    confidence := 0.95, category := .css,
    description := "CSS backdrop-filter" },
  { featureId := "aspect-ratio",
    pattern := "/aspect-ratio\\s*:/gi",
    language := ["css", "scss", "less", "stylus"],
    confidence := 1.0, category := .css,
    description := "CSS aspect-ratio" },
  { featureId := "css-nesting",
    pattern := "/&\\s*\\\x7b|&\\s+\\./gi",
    language := ["css", "scss", "less"],
    confidence := 0.7, category := .css,
    description := "CSS Nesting" },
  { featureId := "urlpattern",
    pattern := "/new\\s+URLPattern\\s*\\(/g",
    language := ["javascript", "typescript", "javascriptreact", "typescriptreact"],
    confidence := 1.0, category := .api,
    description := "URLPattern API",
    astPattern := some { nodeType := .NewExpression, objectName := some "URLPattern" } },
  { featureId := "async-clipboard",
    pattern := "/navigator\\.clipboard\\.(writeText|readText|write|read)/g",
    language := ["javascript", "typescript", "javascriptreact", "typescriptreact"],
    confidence := 0.95, category := .api,
    description := "Async Clipboard API" },
  { featureId := "abortcontroller",
    pattern := "/new\\s+AbortController\\s*\\(/g",
    language := ["javascript", "typescript", "javascriptreact", "typescriptreact"],
    confidence := 1.0, category := .api,
    description := "AbortController",
    astPattern := some { nodeType := .NewExpression, objectName := some "AbortController" } },
  { featureId := "abortsignal",
    pattern := "/AbortSignal\\.(abort|timeout)/g",
    language := ["javascript", "typescript", "javascriptreact", "typescriptreact"],
    confidence := 0.95, category := .api,
    description := "AbortSignal static methods" },
  { featureId := "intersectionobserver",
    pattern := "/new\\s+IntersectionObserver\\s*\\(/g",
    language := ["javascript", "typescript", "javascriptreact", "typescriptreact"],
    confidence := 1.0, category := .api,
    description := "Intersection Observer API",
    astPattern := some { nodeType := .NewExpression, objectName := some "IntersectionObserver" } },
  { featureId := "resizeobserver",
    pattern := "/new\\s+ResizeObserver\\s*\\(/g",
    language := ["javascript", "typescript", "javascriptreact", "typescriptreact"],
    confidence := 1.0, category := .api,
    description := "Resize Observer API",
    astPattern := some { nodeType := .NewExpression, objectName := some "ResizeObserver" } },
  { featureId := "mutationobserver",
    pattern := "/new\\s+MutationObserver\\s*\\(/g",
    language := ["javascript", "typescript", "javascriptreact", "typescriptreact"],
    confidence := 1.0, category := .api,
    description := "Mutation Observer API",
    astPattern := some { nodeType := .NewExpression, objectName := some "MutationObserver" } },
  { featureId := "web-share",
    pattern := "/navigator\\.share\\s*\\(/g",
    language := ["javascript", "typescript", "javascriptreact", "typescriptreact"],
    confidence := 0.95, category := .api,
    description := "Web Share API",
    astPattern := some { nodeType := .CallExpression, objectName := some "navigator",
                         methodName := some "share" } },
  { featureId := "view-transitions",
    pattern := "/document\\.startViewTransition\\s*\\(/g",
    language := ["javascript", "typescript", "javascriptreact", "typescriptreact"],
    confidence := 1.0, category := .api,
    description := "View Transitions API",
    astPattern := some { nodeType := .CallExpression, objectName := some "document",
                         methodName := some "startViewTransition" } },
  { featureId := "broadcastchannel",
    pattern := "/new\\s+BroadcastChannel\\s*\\(/g",
    language := ["javascript", "typescript", "javascriptreact", "typescriptreact"],
    confidence := 1.0, category := .api,
    description := "Broadcast Channel API",
    astPattern := some { nodeType := .NewExpression, objectName := some "BroadcastChannel" } },
  { featureId := "serviceworker",
    pattern := "/navigator\\.serviceWorker/g",
    language := ["javascript", "typescript", "javascriptreact", "typescriptreact"],
    confidence := 0.95, category := .api,
    description := "Service Worker API" },
  { featureId := "web-animations",
    pattern := "/\\.animate\\s*\\(/g",
    language := ["javascript", "typescript", "javascriptreact", "typescriptreact"],
    confidence := 0.7, contextRequired := true, category := .api,
    description := "Web Animations API" },
  { featureId := "fetch",
    pattern := "/\\bfetch\\s*\\(/g",
    language := ["javascript", "typescript", "javascriptreact", "typescriptreact"],
    confidence := 0.9, category := .api,
    description := "Fetch API" },
  { featureId := "payment-request",
    pattern := "/new\\s+PaymentRequest\\s*\\(/g",
    language := ["javascript", "typescript", "javascriptreact", "typescriptreact"],
    confidence := 1.0, category := .api,
    description := "Payment Request API",
    astPattern := some { nodeType := .NewExpression, objectName := some "PaymentRequest" } },
  { featureId := "notification",
    pattern := "/new\\s+Notification\\s*\\(/g",
    language := ["javascript", "typescript", "javascriptreact", "typescriptreact"],
    confidence := 1.0, category := .api,
    description := "Notifications API",
    astPattern := some { nodeType := .NewExpression, objectName := some "Notification" } },
  { featureId := "geolocation",
    pattern := "/navigator\\.geolocation/g",
    language := ["javascript", "typescript", "javascriptreact", "typescriptreact"],
    confidence := 0.95, category := .api,
    description := "Geolocation API" },
  { featureId := "indexeddb",
    pattern := "/indexedDB\\.open|IDBDatabase/g",
    language := ["javascript", "typescript", "javascriptreact", "typescriptreact"],
    confidence := 0.9, category := .api,
    description := "IndexedDB" },
  { featureId := "websockets",
    pattern := "/new\\s+WebSocket\\s*\\(/g",
    language := ["javascript", "typescript", "javascriptreact", "typescriptreact"],
    confidence := 1.0, category := .api,
    description := "WebSocket API",
    astPattern := some { nodeType := .NewExpression, objectName := some "WebSocket" } },
  { featureId := "pointer-events",
    pattern := "/onpointer(down|up|move|cancel|over|out|enter|leave)/gi",
    language := ["javascript", "typescript", "html", "javascriptreact", "typescriptreact"],
    confidence := 0.85, category := .api,
    description := "Pointer Events" },
  { featureId := "dialog",
    pattern := "/<dialog[>\\s]/gi",
    language := ["html", "javascriptreact", "typescriptreact", "vue", "svelte"],
    confidence := 0.95, category := .html,
    description := "HTML <dialog> element" },
  { featureId := "details",
    pattern := "/<details[>\\s]/gi",
    language := ["html", "javascriptreact", "typescriptreact", "vue", "svelte"],
    confidence := 0.95, category := .html,
    description := "HTML <details> element" },
  { featureId := "picture",
    pattern := "/<picture[>\\s]/gi",
    language := ["html", "javascriptreact", "typescriptreact", "vue", "svelte"],
    confidence := 0.95, category := .html,
    description := "HTML <picture> element" },
  { featureId := "loading-lazy",
    pattern := "/loading\\s*=\\s*[\"\x27]lazy[\"\x27]/gi",
    language := ["html", "javascriptreact", "typescriptreact", "vue"],
    confidence := 0.9, category := .html,
    description := "HTML loading=lazy attribute" },
  { featureId := "template",
    pattern := "/<template[>\\s]/gi",
    language := ["html", "javascriptreact", "typescriptreact", "vue"],
    confidence := 0.95, category := .html,
    description := "HTML <template> element" },
  { featureId := "slot",
    pattern := "/<slot[>\\s]/gi",
    language := ["html", "javascriptreact", "typescriptreact", "vue"],
    confidence := 0.95, category := .html,
    description := "HTML <slot> element" }
]

/-- `getPatternsForLanguage` (enhancedPatterns.ts); the detector's inline
filter `ENHANCED_WEB_PATTERNS.filter(p => p.language.includes(language))`
is the same expression. -/
def getPatternsForLanguage (language : String) : List PatternInfo :=
  ENHANCED_WEB_PATTERNS.filter (fun p => p.language.contains language)

/-! ## JavaScript `Map` model: insertion-ordered association list. -/

/-- `Map.get`. -/
def mapGet {α : Type} : List (String × α) → String → Option α
  | [], _ => none
  | p :: ps, k => if p.1 = k then some p.2 else mapGet ps k

/-- `Map.has`. -/
def mapHas {α : Type} (m : List (String × α)) (k : String) : Bool :=
  (mapGet m k).isSome

/-- `Map.set`: update the live entry in place, else append. -/
def mapSet {α : Type} : List (String × α) → String → α → List (String × α)
  | [], k, v => [(k, v)]
  | p :: ps, k, v => if p.1 = k then (k, v) :: ps else p :: mapSet ps k v

/-- `Map.delete`: remove the live entry for the key, if any. -/
def mapDelete {α : Type} : List (String × α) → String → List (String × α)
  | [], _ => []
  | p :: ps, k => if p.1 = k then ps else p :: mapDelete ps k

/-! ## Detector data model -/

/-- The `detectionMethod` field. -/
inductive DetectionMethod where
  | ast
  | regex
deriving DecidableEq, Repr

/-- `EnhancedDetectedFeature` (enhancedFeatureDetector.ts). -/
structure EnhancedDetectedFeature where
  feature : WebFeature
  range : Range
  severity : DiagnosticSeverity
  confidence : ℚ
  context : String
  detectionMethod : DetectionMethod
deriving DecidableEq, Repr

/-- `isTypeScriptLike` (enhancedFeatureDetector.ts line 75). -/
def isTypeScriptLike (language : String) : Bool :=
  ["typescript", "javascript", "typescriptreact", "javascriptreact"].contains language

/-- `getSeverity` (lines 311-324): severity hint from `baseline?.status`. -/
def getSeverity (feature : WebFeature) : DiagnosticSeverity :=
  match feature.baselineStatus with
  | some "limited" => .Warning
  | some "newly" => .Information
  | some "widely" => .Hint
  | _ => .Information

/-- `validateContext` (lines 281-298): line-local heuristic confidence for
ambiguous matches; the default branch returns the rule's base confidence.
The first parameter embeds the (unused) `match` argument. -/
def validateContext (_mtch : String) (lineText : String) (patternInfo : PatternInfo) : ℚ :=
  match patternInfo.featureId with
  | "js-optional-chaining" =>
      if strIncludes lineText "?." && !hasQuestionNonDot lineText.toList then 0.9 else 0.3
  | "js-private-fields" =>
      if testClassSpace lineText.toList || strStartsWith (strTrim lineText) "#" then 0.9 else 0.4
  | "js-top-level-await" =>
      if !strIncludes lineText "async" && strStartsWith (strTrim lineText) "await" then 0.8
      else 0.3
  | _ => patternInfo.confidence

/-- `getLineContext` (lines 300-309): the lines from two above to two below
the match's line, each followed by `'\n'`. -/
def getLineContext (text : String) (lineNumber : Nat) : String :=
  let startLine := lineNumber - 2
  let endLine := min ((docLines text).length - 1) (lineNumber + 2)
  ((List.range (endLine + 1 - startLine)).map
    (fun i => lineAt text (startLine + i) ++ "\n")).foldl (fun a b => a ++ b) ""

/-! ## Result merger (`filterAndDeduplicateFeatures`, lines 326-348) -/

/-- The merge key `feature.feature_id + "-" + range.start.line` (line 330). -/
def mergeKey (f : EnhancedDetectedFeature) : String :=
  f.feature.feature_id ++ "-" ++ toString f.range.start.line

/-- One iteration of the dedup loop (lines 329-336): keep the stored entry
unless the new one has strictly higher confidence. -/
def dedupeStep (seen : List (String × EnhancedDetectedFeature))
    (f : EnhancedDetectedFeature) : List (String × EnhancedDetectedFeature) :=
  match mapGet seen (mergeKey f) with
  | none => mapSet seen (mergeKey f) f
  | some g => if g.confidence < f.confidence then mapSet seen (mergeKey f) f else seen

/-- The `seen` map after the whole dedup loop. -/
def dedupeMap (features : List EnhancedDetectedFeature) :
    List (String × EnhancedDetectedFeature) :=
  features.foldl dedupeStep []

/-- `Array.from(seen.values())` (line 339). -/
def dedupeValues (features : List EnhancedDetectedFeature) : List EnhancedDetectedFeature :=
  (dedupeMap features).map (fun p => p.2)

/-- `filterAndDeduplicateFeatures`: dedup then drop entries below 0.6. -/
def filterAndDeduplicateFeatures (features : List EnhancedDetectedFeature) :
    List EnhancedDetectedFeature :=
  (dedupeValues features).filter (fun f => (0.6 : ℚ) ≤ f.confidence)

/-! ## Syntax matcher (`detectWithAST`, `findASTNodes`, lines 79-189).
The TypeScript parse tree is embedded as `TSNode`; the parser itself
(`ts.createSourceFile`) is external and passed as
`parse : String → Except String TSNode` (`Except.error` embeds a thrown
parse exception, caught at lines 133-135). -/

/-- The shape of an expression, as far as `findASTNodes` inspects it:
`ts.isIdentifier` / `ts.isPropertyAccessExpression` plus the identifier
text, member name and optional-chaining token. -/
inductive ExprShape where
  | ident (name : String)
  | propAccess (receiver : ExprShape) (memberName : String) (questionDot : Bool)
  | otherExpr
deriving Repr

/-- The node classifications `findASTNodes` distinguishes. -/
inductive NodeShape where
  | newExpression (callee : ExprShape)
  | callExpression (callee : ExprShape)
  | propertyAccess (receiver : ExprShape) (memberName : String) (questionDot : Bool)
  | otherNode
deriving Repr

/-- A node of the parse tree: its shape, `getStart()` / `getEnd()` offsets
and children (`ts.forEachChild` order). -/
inductive TSNode where
  | node (shape : NodeShape) (startOff stopOff : Nat) (children : List TSNode)
deriving Repr

def TSNode.startOff : TSNode → Nat
  | .node _ s _ _ => s

def TSNode.stopOff : TSNode → Nat
  | .node _ _ e _ => e

/-- The per-node test of `findASTNodes`'s `visit` (lines 144-179):
the `if / else if` chain on `astPattern.nodeType` and the node's kind. -/
def nodeMatches (astPattern : ASTPattern) (shape : NodeShape) : Bool :=
  match astPattern.nodeType, shape with
  | .NewExpression, .newExpression callee =>
      (match callee, astPattern.objectName with
       | .ident name, some objectName => name = objectName
       | _, _ => false)
  | .CallExpression, .callExpression callee =>
      (match callee with
       | .propAccess receiver memberName _ =>
           (match astPattern.methodName with
            | some methodName =>
                if memberName = methodName then
                  (match astPattern.objectName with
                   | some objectName =>
                       (match receiver with
                        | .ident name => name = objectName
                        | _ => false)
                   | none => true)
                else false
            | none => false)
       | _ => false)
  | .QuestionDotToken, .propertyAccess _ _ questionDot => questionDot
  | _, _ => false

mutual

/-- `findASTNodes` (lines 140-183): depth-first `visit`, testing the node
before its children. -/
def findASTNodes (astPattern : ASTPattern) : TSNode → List TSNode
  | .node shape s e children =>
      (if nodeMatches astPattern shape then [TSNode.node shape s e children] else []) ++
        findASTNodesList astPattern children

def findASTNodesList (astPattern : ASTPattern) : List TSNode → List TSNode
  | [] => []
  | c :: cs => findASTNodes astPattern c ++ findASTNodesList astPattern cs

end

/-- `getNodeContext` (lines 185-189): ±50 characters around the node,
clamped to the document. -/
def getNodeContext (text : String) (nd : TSNode) : String :=
  jsSubstring text (nd.startOff - 50) (min text.length (nd.stopOff + 50))

/-- `detectWithAST` (lines 79-138): parse, then for every rule carrying an
`astPattern`, emit one detection per matching node whose feature resolves
in the lookup service. `Except.error` (a parse failure) yields `[]`. -/
def detectWithAST (parse : String → Except String TSNode)
    (getFeature : String → Option WebFeature) (text : String)
    (patterns : List PatternInfo) : List EnhancedDetectedFeature :=
  match parse text with
  | .error _ => []
  | .ok root =>
      let astPatterns := patterns.filter (fun p => p.astPattern.isSome)
      astPatterns.foldl (fun acc patternInfo =>
        match patternInfo.astPattern with
        | none => acc
        | some astPattern =>
            (findASTNodes astPattern root).foldl (fun acc2 nd =>
              match getFeature patternInfo.featureId with
              | none => acc2
              | some feature =>
                  acc2 ++ [{ feature := feature,
                             range := ⟨positionAt text nd.startOff, positionAt text nd.stopOff⟩,
                             severity := getSeverity feature,
                             confidence := patternInfo.confidence,
                             context := getNodeContext text nd,
                             detectionMethod := .ast }]) acc) []

/-! ## Text matcher (`detectWithRegex`, lines 191-269) -/

/-- The JS regex engine, external to the repository: given a pattern's
source text, the subject text and the regex's current `lastIndex`, `exec`
either finds a match (its index and length) or reports none. On a match
`exec` moves `lastIndex` to `index + length`; on no match it resets it
to `0` (both transitions are written out in `scanRuleLoop`). -/
abbrev RegexEngine := String → String → Nat → Option (Nat × Nat)

/-- Per-rule `lastIndex` state of the shared, reused registry regexes,
keyed by the rule's `featureId` (unique in this registry). -/
abbrev Cursors := List (String × Nat)

/-- The `while ((match = pattern.exec(text)) !== null)` loop body
(lines 212-261), fuelled: `none` means the fuel ran out before the loop
finished. The two `continue` statements (feature-lookup miss, line 219,
and low context confidence, line 239) jump straight back to `exec`,
skipping the zero-advance guard of lines 257-260; the guard only runs on
iterations that emit a detection. Returns the emitted detections and the
regex's final `lastIndex`. -/
def scanRuleLoop (exec : RegexEngine) (getFeature : String → Option WebFeature)
    (text : String) (patternInfo : PatternInfo) :
    Nat → Nat → List EnhancedDetectedFeature →
    Option (List EnhancedDetectedFeature × Nat)
  | 0, _, _ => none
  | fuel + 1, lastIndex, acc =>
      match exec patternInfo.pattern text lastIndex with
      | none => some (acc, 0)
      | some (idx, len) =>
          let lastIndex2 := idx + len
          match getFeature patternInfo.featureId with
          | none => scanRuleLoop exec getFeature text patternInfo fuel lastIndex2 acc
          | some feature =>
              let startPos := positionAt text idx
              let stopPos := positionAt text (idx + len)
              let confidence :=
                if patternInfo.contextRequired then
                  validateContext (jsSubstring text idx (idx + len))
                    (lineAt text startPos.line) patternInfo
                else patternInfo.confidence
              if patternInfo.contextRequired && decide (confidence < (0.5 : ℚ)) then
                scanRuleLoop exec getFeature text patternInfo fuel lastIndex2 acc
              else
                let f : EnhancedDetectedFeature :=
                  { feature := feature,
                    range := ⟨startPos, stopPos⟩,
                    severity := getSeverity feature,
                    confidence := confidence,
                    context := getLineContext text startPos.line,
                    detectionMethod := .regex }
                let lastIndex3 := if idx = lastIndex2 then lastIndex2 + 1 else lastIndex2
                scanRuleLoop exec getFeature text patternInfo fuel lastIndex3 (acc ++ [f])

/-- The fuel `detectWithRegex` hands to each rule's scan: when every match
advances the cursor, at most `text.length + 1` matches fit, so this fuel
is never exhausted on such runs. -/
def scanFuel (text : String) : Nat :=
  text.length + 2

/-- The body of `detectWithRegex`'s rule loop (lines 198-265): skip a rule
that has an `astPattern` when the language is TypeScript-like
(lines 198-203); otherwise reset the rule's `lastIndex` to 0 (line 210)
and run the scan loop, appending its detections and recording the rule's
final cursor. -/
def regexRuleStep (exec : RegexEngine) (getFeature : String → Option WebFeature)
    (languageId : String) (text : String)
    (st : List EnhancedDetectedFeature × Cursors) (patternInfo : PatternInfo) :
    Option (List EnhancedDetectedFeature × Cursors) :=
  if patternInfo.astPattern.isSome && isTypeScriptLike languageId then
    some st
  else
    match scanRuleLoop exec getFeature text patternInfo (scanFuel text) 0 [] with
    | none => none
    | some (fs, finalIdx) =>
        some (st.1 ++ fs, mapSet st.2 patternInfo.featureId finalIdx)

/-- `detectWithRegex` (lines 191-269): the rule loop over the applicable
patterns. `none` propagates a scan whose fuel ran out. -/
def detectWithRegex (exec : RegexEngine) (getFeature : String → Option WebFeature)
    (languageId : String) (text : String) (patterns : List PatternInfo)
    (cursors : Cursors) : Option (List EnhancedDetectedFeature × Cursors) :=
  patterns.foldlM (regexRuleStep exec getFeature languageId text) ([], cursors)

/-! ## Entry point (`detectFeatures`, lines 21-73) and the detection cache -/

/-- The caller-supplied document: identity (`uri.toString()`), edit
version, language and full text. -/
structure TextDocument where
  uri : String
  version : Nat
  languageId : String
  text : String
deriving DecidableEq, Repr

/-- The detector's mutable state: the detection cache (line 18) and the
shared regexes' `lastIndex` cursors. -/
structure DetectorState where
  cache : List (String × List EnhancedDetectedFeature)
  cursors : Cursors
deriving DecidableEq, Repr

/-- The cache key `` `${document.uri.toString()}-${document.version}` ``
(line 22). -/
def cacheKey (document : TextDocument) : String :=
  document.uri ++ "-" ++ toString document.version

/-- Lines 61-70: store the merged result, then if the cache holds more
than 10 entries, delete the first (oldest-inserted) key. -/
def storeResult (s : DetectorState) (key : String)
    (filtered : List EnhancedDetectedFeature) (cursors2 : Cursors) : DetectorState :=
  let cache1 := mapSet s.cache key filtered
  let cache2 :=
    if 10 < cache1.length then
      match cache1.head? with
      | some firstEntry => mapDelete cache1 firstEntry.1
      | none => cache1
    else cache1
  ⟨cache2, cursors2⟩

/-- `detectFeatures` (lines 21-73): cache lookup, else syntax matching
(TypeScript-like languages only), text matching, merge, store. `none`
propagates a text-matcher scan that exhausted its fuel. -/
def detectFeatures (exec : RegexEngine) (parse : String → Except String TSNode)
    (getFeature : String → Option WebFeature) (s : DetectorState)
    (document : TextDocument) :
    Option (List EnhancedDetectedFeature × DetectorState) :=
  match mapGet s.cache (cacheKey document) with
  | some cached => some (cached, s)
  | none =>
      let patterns := getPatternsForLanguage document.languageId
      let astFeatures :=
        if isTypeScriptLike document.languageId then
          detectWithAST parse getFeature document.text patterns
        else []
      match detectWithRegex exec getFeature document.languageId document.text
          patterns s.cursors with
      | none => none
      | some (regexFeatures, cursors2) =>
          let filtered := filterAndDeduplicateFeatures (astFeatures ++ regexFeatures)
          some (filtered, storeResult s (cacheKey document) filtered cursors2)

/-! ## Registry validation (spec-modelled) -/

/-- Modelled from the spec: the repository's `src/` contains no explicit
`validate()`; spec §4.1 and §7 describe a startup validation failing fast
on a rule with an empty/invalid regex or an incomplete structural
descriptor. A rule is well-formed when its regex source is non-empty and
its structural descriptor carries the name that the matching
`findASTNodes` branch dereferences (`objectName` for `NewExpression`,
`methodName` for `CallExpression`). -/
def ruleWellFormed (r : PatternInfo) : Bool :=
  r.pattern ≠ "" &&
    (match r.astPattern with
     | none => true
     | some ap =>
         match ap.nodeType with
         | .NewExpression => ap.objectName.isSome
         | .CallExpression => ap.methodName.isSome
         | .QuestionDotToken => true)

/-- Modelled from the spec: `validate()` — run once at startup, fatal
(`Except.error`) on the first malformed rule, before any per-document
detection happens. -/
def validateRegistry (rules : List PatternInfo) : Except String Unit :=
  match rules.find? (fun r => !ruleWellFormed r) with
  | some r => Except.error ("malformed pattern rule: " ++ r.featureId)
  | none => Except.ok ()

/-! ## Text-only degradation (statement vocabulary for parse failure) -/

/-- The cache-miss pipeline with the syntax matcher contributing nothing:
text matching, merge, store. Parse failure must reduce `detectFeatures`
to exactly this. -/
def textOnlyDetect (exec : RegexEngine) (getFeature : String → Option WebFeature)
    (s : DetectorState) (document : TextDocument) :
    Option (List EnhancedDetectedFeature × DetectorState) :=
  match detectWithRegex exec getFeature document.languageId document.text
      (getPatternsForLanguage document.languageId) s.cursors with
  | none => none
  | some (regexFeatures, cursors2) =>
      let filtered := filterAndDeduplicateFeatures regexFeatures
      some (filtered, storeResult s (cacheKey document) filtered cursors2)

/-! ## Concrete instances used by witnesses and counterexamples -/

/-- A regex engine with the behaviour of the zero-length-matching literal
`/(?:)/g`: a zero-length match at every position up to the end of the
text. -/
def emptyMatchExec : RegexEngine := fun _ text lastIndex =>
  if lastIndex ≤ text.length then some (lastIndex, 0) else none

/-- A regex engine that never matches. -/
def noMatchExec : RegexEngine := fun _ _ _ => none

/-- A parser that rejects every document. -/
def failParse : String → Except String TSNode := fun _ => Except.error "parse failure"

/-- A feature-lookup service that resolves no feature identifier. -/
def emptyLookup : String → Option WebFeature := fun _ => none

/-- A hypothetical rule whose regex can produce a zero-length match; the
text matcher runs whatever rules the registry holds, so the scan loop must
cope with such a rule. -/
def ghostRule : PatternInfo :=
  { featureId := "ghost-feature", pattern := "/(?:)/g",
    language := ["plaintext"], confidence := 1, category := .api,
    description := "hypothetical zero-length-matching rule" }

/-- A raw detection for `grid` on line 3 with confidence 0.9. -/
def demoDetectionHigh : EnhancedDetectedFeature :=
  { feature := ⟨"grid", "Grid", some "widely"⟩,
    range := ⟨⟨3, 0⟩, ⟨3, 5⟩⟩, severity := .Hint, confidence := 0.9,
    context := "", detectionMethod := .regex }

/-- A raw detection for `grid` on line 3 (a different column) with
confidence 0.6. -/
def demoDetectionLow : EnhancedDetectedFeature :=
  { feature := ⟨"grid", "Grid", some "widely"⟩,
    range := ⟨⟨3, 7⟩, ⟨3, 12⟩⟩, severity := .Hint, confidence := 0.6,
    context := "", detectionMethod := .regex }

/-- A malformed rule: its regex source is empty. -/
def emptyPatternRule : PatternInfo :=
  { featureId := "bad-rule", pattern := "", language := ["css"],
    confidence := 1, category := .css, description := "malformed rule" }

/-- Every cached list of a detector state respects the 0.6 confidence
floor. -/
def cacheRespectsFloor (s : DetectorState) : Prop :=
  ∀ kv ∈ s.cache, ∀ f ∈ kv.2, (0.6 : ℚ) ≤ f.confidence

/-- Well-formedness of the merger's `seen` map: keys are pairwise distinct
and each entry is keyed by its value's merge key. -/
def seenWellFormed (m : List (String × EnhancedDetectedFeature)) : Prop :=
  (m.map Prod.fst).Nodup ∧ ∀ p ∈ m, mergeKey p.2 = p.1

/-- The merger's retention rule on the detections of one merge-key group,
in production order: a later detection replaces the current survivor only
with strictly higher confidence, so ties keep the earlier one; `none` for
an empty group. -/
def groupSurvivor : List EnhancedDetectedFeature → Option EnhancedDetectedFeature
  | [] => none
  | f :: fs =>
      some (fs.foldl (fun acc g => if acc.confidence < g.confidence then g else acc) f)

/-- A cache already filled to its capacity of 10 entries. -/
def tenCache : List (String × List EnhancedDetectedFeature) :=
  [("k0", []), ("k1", []), ("k2", []), ("k3", []), ("k4", []),
   ("k5", []), ("k6", []), ("k7", []), ("k8", []), ("k9", [])]

/-- `tenCache` after inserting a fresh key over capacity: the
oldest-inserted entry `"k0"` is gone, the new entry is appended. -/
def evictedCache : List (String × List EnhancedDetectedFeature) :=
  [("k1", []), ("k2", []), ("k3", []), ("k4", []), ("k5", []),
   ("k6", []), ("k7", []), ("k8", []), ("k9", []), ("u-1", [])]

/-- The one registry rule with `contextRequired` set (`web-animations`,
index 21 of the registry). -/
def webAnimationsRule : PatternInfo :=
  ENHANCED_WEB_PATTERNS.get ⟨21, by decide⟩

/-! ## Lemmas about the `Map` model -/

theorem mapGet_mapSet_self {α : Type} (m : List (String × α)) (k : String) (v : α) :
    mapGet (mapSet m k v) k = some v := by
  induction m with
  | nil => simp [mapSet, mapGet]
  | cons p ps ih =>
      by_cases h : p.1 = k
      · simp [mapSet, h, mapGet]
      · simp [mapSet, h, mapGet, ih]

theorem mapGet_mapSet_ne {α : Type} (m : List (String × α)) {k k' : String} (v : α)
    (h : k' ≠ k) : mapGet (mapSet m k v) k' = mapGet m k' := by
  have h2 : ¬(k = k') := fun he => h he.symm
  induction m with
  | nil => simp [mapSet, mapGet, h2]
  | cons p ps ih =>
      by_cases hp : p.1 = k
      · simp [mapSet, hp, mapGet, h2]
      · simp [mapSet, hp, mapGet, ih]

theorem mapGet_eq_none_iff {α : Type} (m : List (String × α)) (k : String) :
    mapGet m k = none ↔ ∀ p ∈ m, p.1 ≠ k := by
  induction m with
  | nil => simp [mapGet]
  | cons p ps ih =>
      by_cases h : p.1 = k
      · simp [mapGet, h]
      · simp [mapGet, h, ih]

theorem mapGet_mem {α : Type} {m : List (String × α)} {k : String} {v : α}
    (h : mapGet m k = some v) : (k, v) ∈ m := by
  induction m with
  | nil => simp [mapGet] at h
  | cons p ps ih =>
      obtain ⟨a, b⟩ := p
      by_cases hp : a = k
      · subst hp
        simp [mapGet] at h
        subst h
        exact List.mem_cons_self _ _
      · simp [mapGet, hp] at h
        exact List.mem_cons_of_mem _ (ih h)

theorem mapSet_of_get_none {α : Type} {m : List (String × α)} {k : String}
    (v : α) (h : mapGet m k = none) : mapSet m k v = m ++ [(k, v)] := by
  induction m with
  | nil => simp [mapSet]
  | cons p ps ih =>
      by_cases hp : p.1 = k
      · simp [mapGet, hp] at h
      · simp [mapGet, hp] at h
        simp [mapSet, hp, ih h]

theorem mem_mapSet {α : Type} {m : List (String × α)} {k : String} {v : α} {q : String × α}
    (h : q ∈ mapSet m k v) : q ∈ m ∨ q = (k, v) := by
  induction m with
  | nil => simp [mapSet] at h; simp [h]
  | cons p ps ih =>
      by_cases hp : p.1 = k
      · simp [mapSet, hp] at h
        rcases h with h | h
        · right; simp [h]
        · left; exact List.mem_cons_of_mem _ h
      · simp [mapSet, hp] at h
        rcases h with h | h
        · left; simp [h]
        · rcases ih h with h2 | h2
          · left; exact List.mem_cons_of_mem _ h2
          · right; exact h2

theorem map_fst_mapSet_of_some {α : Type} {m : List (String × α)} {k : String} {w : α}
    (v : α) (h : mapGet m k = some w) :
    (mapSet m k v).map Prod.fst = m.map Prod.fst := by
  induction m with
  | nil => simp [mapGet] at h
  | cons p ps ih =>
      by_cases hp : p.1 = k
      · simp [mapSet, hp]
      · simp [mapGet, hp] at h
        simp [mapSet, hp, ih h]

theorem nodup_map_fst_mapSet {α : Type} {m : List (String × α)} (k : String) (v : α)
    (h : (m.map Prod.fst).Nodup) : ((mapSet m k v).map Prod.fst).Nodup := by
  cases hget : mapGet m k with
  | some w => rw [map_fst_mapSet_of_some v hget]; exact h
  | none =>
      rw [mapSet_of_get_none v hget]
      rw [List.map_append, List.map_cons, List.map_nil, List.nodup_append]
      refine ⟨h, List.nodup_singleton _, ?_⟩
      intro a ha hb
      rw [List.mem_singleton] at hb
      rw [hb] at ha
      rcases List.mem_map.mp ha with ⟨p, hpm, hpk⟩
      exact (mapGet_eq_none_iff m k).mp hget p hpm hpk

theorem mapDelete_sublist {α : Type} (m : List (String × α)) (k : String) :
    (mapDelete m k).Sublist m := by
  induction m with
  | nil => simp [mapDelete]
  | cons p ps ih =>
      by_cases hp : p.1 = k
      · simp [mapDelete, hp]
      · simp [mapDelete, hp]
        exact ih

theorem mem_mapDelete {α : Type} {m : List (String × α)} {k : String} {q : String × α}
    (h : q ∈ mapDelete m k) : q ∈ m :=
  (mapDelete_sublist m k).mem h

theorem mapGet_mapDelete_ne {α : Type} (m : List (String × α)) {k0 k : String}
    (h : k0 ≠ k) : mapGet (mapDelete m k0) k = mapGet m k := by
  have h2 : k ≠ k0 := Ne.symm h
  induction m with
  | nil => simp [mapDelete]
  | cons p ps ih =>
      by_cases hp : p.1 = k0
      · have hpk : p.1 ≠ k := by rw [hp]; exact h
        simp [mapDelete, hp, mapGet, hpk, h, h2]
      · by_cases hk : p.1 = k
        · simp [mapDelete, hp, mapGet, hk, h2]
        · simp [mapDelete, hp, mapGet, hk, h2, ih]

theorem nodup_map_fst_mapDelete {α : Type} {m : List (String × α)} (k : String)
    (h : (m.map Prod.fst).Nodup) : ((mapDelete m k).map Prod.fst).Nodup :=
  ((mapDelete_sublist m k).map Prod.fst).nodup h

/-! ## Lemmas about the result merger -/

theorem seenWellFormed_dedupeStep {m : List (String × EnhancedDetectedFeature)}
    (hm : seenWellFormed m) (f : EnhancedDetectedFeature) :
    seenWellFormed (dedupeStep m f) := by
  have hset : seenWellFormed (mapSet m (mergeKey f) f) := by
    refine ⟨nodup_map_fst_mapSet _ _ hm.1, fun p hp => ?_⟩
    rcases mem_mapSet hp with h | h
    · exact hm.2 p h
    · rw [h]
  unfold dedupeStep
  cases hget : mapGet m (mergeKey f) with
  | none => exact hset
  | some g =>
      by_cases hc : g.confidence < f.confidence
      · simpa [hc] using hset
      · simpa [hc] using hm

theorem seenWellFormed_dedupeMap (features : List EnhancedDetectedFeature) :
    seenWellFormed (dedupeMap features) := by
  have hgen : ∀ (fs : List EnhancedDetectedFeature) m, seenWellFormed m →
      seenWellFormed (fs.foldl dedupeStep m) := by
    intro fs
    induction fs with
    | nil => intro m hm; exact hm
    | cons a fs ih => intro m hm; exact ih _ (seenWellFormed_dedupeStep hm a)
  exact hgen features [] ⟨by simp, by simp⟩

theorem nodup_mergeKeys_dedupeValues (features : List EnhancedDetectedFeature) :
    ((dedupeValues features).map mergeKey).Nodup := by
  have h := seenWellFormed_dedupeMap features
  unfold dedupeValues
  rw [List.map_map]
  have heq : (dedupeMap features).map (mergeKey ∘ Prod.snd) =
      (dedupeMap features).map Prod.fst :=
    List.map_congr_left (fun p hp => h.2 p hp)
  rw [heq]
  exact h.1

theorem length_filter_key_le_one {l : List EnhancedDetectedFeature}
    (h : (l.map mergeKey).Nodup) (k : String) :
    (l.filter (fun f => decide (mergeKey f = k))).length ≤ 1 := by
  induction l with
  | nil => simp
  | cons a l ih =>
      rw [List.map_cons, List.nodup_cons] at h
      by_cases hk : mergeKey a = k
      · have hnil : l.filter (fun f => decide (mergeKey f = k)) = [] := by
          rw [List.filter_eq_nil_iff]
          intro b hb
          simp only [decide_eq_true_eq]
          intro hbk
          exact h.1 (hk ▸ hbk ▸ List.mem_map_of_mem mergeKey hb)
        simp [hk, hnil]
      · simp [hk, ih h.2]

theorem dedupeStep_get_ne {m : List (String × EnhancedDetectedFeature)}
    {f : EnhancedDetectedFeature} {k : String} (h : k ≠ mergeKey f) :
    mapGet (dedupeStep m f) k = mapGet m k := by
  unfold dedupeStep
  cases mapGet m (mergeKey f) with
  | none => exact mapGet_mapSet_ne m f h
  | some g =>
      by_cases hc : g.confidence < f.confidence
      · simp only [hc, if_true]
        exact mapGet_mapSet_ne m f h
      · simp [hc]

theorem dedupeStep_get_self (m : List (String × EnhancedDetectedFeature))
    (f : EnhancedDetectedFeature) :
    mapGet (dedupeStep m f) (mergeKey f) =
      match mapGet m (mergeKey f) with
      | none => some f
      | some g => some (if g.confidence < f.confidence then f else g) := by
  unfold dedupeStep
  cases hget : mapGet m (mergeKey f) with
  | none => simp [mapGet_mapSet_self]
  | some g =>
      by_cases hc : g.confidence < f.confidence
      · simp [hc, mapGet_mapSet_self]
      · simp [hc, hget]

theorem groupSurvivor_append_single (l : List EnhancedDetectedFeature)
    (f : EnhancedDetectedFeature) :
    groupSurvivor (l ++ [f]) =
      match groupSurvivor l with
      | none => some f
      | some g => some (if g.confidence < f.confidence then f else g) := by
  cases l with
  | nil => rfl
  | cons h t => simp [groupSurvivor, List.foldl_append]

theorem dedupeMap_get_groupSurvivor (fs : List EnhancedDetectedFeature) (k : String) :
    mapGet (dedupeMap fs) k =
      groupSurvivor (fs.filter (fun f => decide (mergeKey f = k))) := by
  induction fs using List.reverseRecOn with
  | nil => rfl
  | append_singleton l f ih =>
      have hstep : dedupeMap (l ++ [f]) = dedupeStep (dedupeMap l) f := by
        unfold dedupeMap
        rw [List.foldl_append]
        rfl
      rw [hstep, List.filter_append]
      by_cases hk : mergeKey f = k
      · subst hk
        have hf1 : List.filter (fun g => decide (mergeKey g = mergeKey f)) [f] = [f] := by
          simp
        rw [hf1, dedupeStep_get_self, groupSurvivor_append_single, ih]
      · have hf0 : List.filter (fun g => decide (mergeKey g = k)) [f] = [] := by
          simp [hk]
        rw [hf0, List.append_nil, dedupeStep_get_ne (fun he => hk he.symm), ih]

/-- C1: passed through the merger, detections sharing a
(featureId, startLine) merge key collapse to at most one surviving entry
(first conjunct: any key occurs at most once in the merged output); the
survivor of every key group is characterised by the retention rule
`groupSurvivor` — a later detection displaces the current survivor only
with strictly higher confidence, ties retaining the one produced first
(second conjunct); in particular two colliding detections collapse to the
strictly-more-confident one, the first on ties (third conjunct, at the
dedup stage `dedupeValues`, i.e. `Array.from(seen.values())`). -/
theorem c1_merge_precedence :
    (∀ (features : List EnhancedDetectedFeature) (k : String),
      ((filterAndDeduplicateFeatures features).filter
        (fun f => decide (mergeKey f = k))).length ≤ 1) ∧
    (∀ (features : List EnhancedDetectedFeature) (k : String),
      mapGet (dedupeMap features) k =
        groupSurvivor (features.filter (fun f => decide (mergeKey f = k)))) ∧
    (∀ f1 f2 : EnhancedDetectedFeature, mergeKey f1 = mergeKey f2 →
      dedupeValues [f1, f2] =
        [if f1.confidence < f2.confidence then f2 else f1]) := by
  refine ⟨?_, dedupeMap_get_groupSurvivor, ?_⟩
  · intro features k
    have hsub : ((filterAndDeduplicateFeatures features).filter
        (fun f => decide (mergeKey f = k))).Sublist
        ((dedupeValues features).filter (fun f => decide (mergeKey f = k))) :=
      (List.filter_sublist _).filter _
    exact le_trans hsub.length_le
      (length_filter_key_le_one (nodup_mergeKeys_dedupeValues features) k)
  · intro f1 f2 h
    by_cases hc : f1.confidence < f2.confidence <;>
      simp [dedupeValues, dedupeMap, dedupeStep, mapGet, mapSet, ← h, hc]

/-- C1 witness: two raw `grid` detections on line 3 with confidences 0.9
and 0.6 collapse to one surviving entry, the 0.9 one. -/
theorem c1_merge_precedence_witness :
    ((filterAndDeduplicateFeatures [demoDetectionHigh, demoDetectionLow]).filter
      (fun f => decide (mergeKey f = "grid-3"))).length ≤ 1 ∧
    mapGet (dedupeMap [demoDetectionHigh, demoDetectionLow]) "grid-3" =
      groupSurvivor ([demoDetectionHigh, demoDetectionLow].filter
        (fun f => decide (mergeKey f = "grid-3"))) ∧
    dedupeValues [demoDetectionHigh, demoDetectionLow] =
      [if demoDetectionHigh.confidence < demoDetectionLow.confidence
       then demoDetectionLow else demoDetectionHigh] :=
  ⟨c1_merge_precedence.1 [demoDetectionHigh, demoDetectionLow] "grid-3",
   c1_merge_precedence.2.1 [demoDetectionHigh, demoDetectionLow] "grid-3",
   c1_merge_precedence.2.2 demoDetectionHigh demoDetectionLow (by rfl)⟩

/-! ## Syntax precedence over the text matcher -/

theorem foldlM_regexRuleStep_filter (exec : RegexEngine)
    (getFeature : String → Option WebFeature) (languageId text : String)
    (h : isTypeScriptLike languageId = true) :
    ∀ (ps : List PatternInfo) (st : List EnhancedDetectedFeature × Cursors),
      ps.foldlM (regexRuleStep exec getFeature languageId text) st =
        (ps.filter (fun p => !p.astPattern.isSome)).foldlM
          (regexRuleStep exec getFeature languageId text) st := by
  intro ps
  induction ps with
  | nil => intro st; rfl
  | cons p ps ih =>
      intro st
      rw [List.foldlM_cons, List.filter_cons]
      by_cases hp : p.astPattern.isSome
      · have hstep : regexRuleStep exec getFeature languageId text st p = some st := by
          simp [regexRuleStep, hp, h]
        rw [hstep]
        simp only [hp, Bool.not_true, Bool.false_eq_true, if_false]
        show ps.foldlM (regexRuleStep exec getFeature languageId text) st = _
        exact ih st
      · simp only [hp, Bool.not_false, if_true]
        rw [List.foldlM_cons]
        cases hstep : regexRuleStep exec getFeature languageId text st p with
        | none => rfl
        | some st2 =>
            show ps.foldlM (regexRuleStep exec getFeature languageId text) st2 = _
            exact ih st2

/-- C4: for a TypeScript-like language the text matcher never scans a rule
that carries a syntax pattern: its result (detections and cursor state)
over any rule list equals the result over the list with every
`astPattern`-carrying rule removed, so occurrences of such rules are only
ever emitted by the syntax matcher. -/
theorem c4_syntax_precedence (exec : RegexEngine)
    (getFeature : String → Option WebFeature) (languageId text : String)
    (patterns : List PatternInfo) (cursors : Cursors)
    (h : isTypeScriptLike languageId = true) :
    detectWithRegex exec getFeature languageId text patterns cursors =
      detectWithRegex exec getFeature languageId text
        (patterns.filter (fun p => !p.astPattern.isSome)) cursors := by
  unfold detectWithRegex
  exact foldlM_regexRuleStep_filter exec getFeature languageId text h patterns ([], cursors)

/-- C4 witness: scanning the TypeScript registry rules for a TypeScript
document is the same as scanning only the rules without a syntax
pattern. -/
theorem c4_syntax_precedence_witness :
    detectWithRegex noMatchExec emptyLookup "typescript" "new URLPattern(x)"
      (getPatternsForLanguage "typescript") [] =
      detectWithRegex noMatchExec emptyLookup "typescript" "new URLPattern(x)"
        ((getPatternsForLanguage "typescript").filter (fun p => !p.astPattern.isSome)) [] :=
  c4_syntax_precedence noMatchExec emptyLookup "typescript" "new URLPattern(x)"
    (getPatternsForLanguage "typescript") [] (by rfl)

/-! ## Non-termination of the scan loop on a skipped zero-advance guard -/

/-- C3 refutation: the zero-advance guard (lines 257-260) sits after the
two `continue` statements, so on a `continue` iteration it is skipped. For
a rule whose regex produces a zero-length match (`ghostRule` with engine
`emptyMatchExec`, the behaviour of `/(?:)/g`) whose featureId the lookup
service does not resolve, `exec` leaves `lastIndex` at `index + 0` and the
`continue` jumps straight back to `exec`: the loop re-reads the same
zero-length match forever. Formally: for every amount of fuel the fuelled
loop fails to finish on text `"a"`, i.e. the matches considered are not
bounded by the text length and the scan does not terminate. -/
theorem c3_zero_advance_guard_skipped_diverges :
    ∀ (fuel : Nat) (acc : List EnhancedDetectedFeature),
      scanRuleLoop emptyMatchExec emptyLookup "a" ghostRule fuel 0 acc = none := by
  intro fuel
  induction fuel with
  | zero => intro acc; rfl
  | succ n ih =>
      intro acc
      show scanRuleLoop emptyMatchExec emptyLookup "a" ghostRule n 0 acc = none
      exact ih acc

/-! ## Lemmas about storing a merged result in the cache -/

theorem mapGet_append_single_self {α : Type} {m : List (String × α)} {k : String}
    (v : α) (hnone : mapGet m k = none) : mapGet (m ++ [(k, v)]) k = some v := by
  rw [← mapSet_of_get_none v hnone]
  exact mapGet_mapSet_self _ _ _

theorem storeResult_get_self (s : DetectorState) (key : String)
    (v : List EnhancedDetectedFeature) (cur : Cursors)
    (hnone : mapGet s.cache key = none) :
    mapGet (storeResult s key v cur).cache key = some v := by
  simp only [storeResult, mapSet_of_get_none v hnone]
  cases hc : s.cache with
  | nil => simp [mapGet]
  | cons p rest =>
      rw [hc] at hnone
      have hp : p.1 ≠ key :=
        (mapGet_eq_none_iff _ _).mp hnone p (List.mem_cons_self _ _)
      simp only [List.cons_append, List.head?_cons]
      by_cases hlen : 10 < (p :: (rest ++ [(key, v)])).length
      · rw [if_pos hlen, mapGet_mapDelete_ne _ hp, ← List.cons_append]
        exact mapGet_append_single_self v hnone
      · rw [if_neg hlen, ← List.cons_append]
        exact mapGet_append_single_self v hnone

theorem storeResult_cache_no_evict (s : DetectorState) (key : String)
    (v : List EnhancedDetectedFeature) (cur : Cursors)
    (hnone : mapGet s.cache key = none) (hlen : s.cache.length < 10) :
    (storeResult s key v cur).cache = s.cache ++ [(key, v)] := by
  have h1 : ¬ 10 < (mapSet s.cache key v).length := by
    rw [mapSet_of_get_none v hnone]
    simp
    omega
  simp only [storeResult, h1, if_false]
  exact mapSet_of_get_none v hnone

theorem storeResult_cache_evict (s : DetectorState) (key : String)
    (v : List EnhancedDetectedFeature) (cur : Cursors)
    (hnone : mapGet s.cache key = none) (hlen : 10 ≤ s.cache.length) :
    (storeResult s key v cur).cache = s.cache.tail ++ [(key, v)] := by
  simp only [storeResult, mapSet_of_get_none v hnone]
  cases hc : s.cache with
  | nil => rw [hc] at hlen; simp at hlen
  | cons p rest =>
      rw [hc] at hlen
      have hlen2 : 10 < (p :: (rest ++ [(key, v)])).length := by
        simp only [List.length_cons, List.length_append, List.length_nil] at hlen ⊢
        omega
      simp only [List.cons_append, List.head?_cons]
      rw [if_pos hlen2]
      simp [mapDelete]

theorem storeResult_mem_cache {s : DetectorState} {key : String}
    {v : List EnhancedDetectedFeature} {cur : Cursors}
    {kv : String × List EnhancedDetectedFeature}
    (hkv : kv ∈ (storeResult s key v cur).cache) : kv ∈ mapSet s.cache key v := by
  simp only [storeResult] at hkv
  by_cases hlen : 10 < (mapSet s.cache key v).length
  · simp only [hlen, if_true] at hkv
    cases hh : (mapSet s.cache key v).head? with
    | none => rw [hh] at hkv; exact hkv
    | some p => rw [hh] at hkv; exact mem_mapDelete hkv
  · simp only [hlen, if_false] at hkv
    exact hkv

theorem storeResult_nodup (s : DetectorState) (key : String)
    (v : List EnhancedDetectedFeature) (cur : Cursors)
    (h : (s.cache.map Prod.fst).Nodup) :
    ((storeResult s key v cur).cache.map Prod.fst).Nodup := by
  have h1 := nodup_map_fst_mapSet key v h
  simp only [storeResult]
  by_cases hlen : 10 < (mapSet s.cache key v).length
  · simp only [hlen, if_true]
    cases hh : (mapSet s.cache key v).head? with
    | none => exact h1
    | some p => exact nodup_map_fst_mapDelete _ h1
  · simp only [hlen, if_false]
    exact h1

theorem filterAndDeduplicateFeatures_floor (features : List EnhancedDetectedFeature) :
    ∀ f ∈ filterAndDeduplicateFeatures features, (0.6 : ℚ) ≤ f.confidence := by
  intro f hf
  unfold filterAndDeduplicateFeatures at hf
  have := List.of_mem_filter hf
  simpa using this

theorem storeResult_floor (s : DetectorState) (key : String)
    (v : List EnhancedDetectedFeature) (cur : Cursors)
    (hinv : cacheRespectsFloor s) (hv : ∀ f ∈ v, (0.6 : ℚ) ≤ f.confidence) :
    cacheRespectsFloor (storeResult s key v cur) := by
  intro kv hkv f hf
  rcases mem_mapSet (storeResult_mem_cache hkv) with h2 | h2
  · exact hinv kv h2 f hf
  · subst h2
    exact hv f hf

/-! ## Claims about `detectFeatures` -/

/-- C2: every detection in the list returned by `detectFeatures` has
confidence at least 0.6, and the 0.6 floor on cached lists is preserved
(so it holds after any sequence of calls starting from the empty cache). -/
theorem c2_confidence_floor (exec : RegexEngine)
    (parse : String → Except String TSNode) (getFeature : String → Option WebFeature)
    (s : DetectorState) (document : TextDocument)
    (out : List EnhancedDetectedFeature) (s1 : DetectorState)
    (hinv : cacheRespectsFloor s)
    (h : detectFeatures exec parse getFeature s document = some (out, s1)) :
    (∀ f ∈ out, (0.6 : ℚ) ≤ f.confidence) ∧ cacheRespectsFloor s1 := by
  simp only [detectFeatures] at h
  cases hget : mapGet s.cache (cacheKey document) with
  | some cached =>
      simp only [hget, Option.some.injEq, Prod.mk.injEq] at h
      obtain ⟨hout, hs1⟩ := h
      subst hs1
      subst hout
      exact ⟨fun f hf => hinv _ (mapGet_mem hget) f hf, hinv⟩
  | none =>
      simp only [hget] at h
      cases hr : detectWithRegex exec getFeature document.languageId document.text
          (getPatternsForLanguage document.languageId) s.cursors with
      | none => simp only [hr] at h; exact Option.noConfusion h
      | some pr =>
          obtain ⟨rf, cur2⟩ := pr
          simp only [hr, Option.some.injEq, Prod.mk.injEq] at h
          obtain ⟨hout, hs1⟩ := h
          subst hs1
          subst hout
          refine ⟨filterAndDeduplicateFeatures_floor _, ?_⟩
          exact storeResult_floor s _ _ cur2 hinv (filterAndDeduplicateFeatures_floor _)

/-- C2 witness: a run from the empty cache on an unknown language returns
the empty list and a state still respecting the floor. -/
theorem c2_confidence_floor_witness :
    (∀ f ∈ ([] : List EnhancedDetectedFeature), (0.6 : ℚ) ≤ f.confidence) ∧
      cacheRespectsFloor ⟨[("u-1", [])], []⟩ :=
  c2_confidence_floor noMatchExec failParse emptyLookup ⟨[], []⟩
    ⟨"u", 1, "plaintext", ""⟩ [] ⟨[("u-1", [])], []⟩
    (by intro kv hkv; simp at hkv) rfl

/-- C5: `detectFeatures` is deterministic across a repeat call: when a
call returns a list, that list is stored in the cache under the document's
(identity, version) key, and an immediately repeated call with the same
document takes the cache-hit branch — returning the stored list unchanged
and leaving the whole detector state untouched (so no matcher state
changes; the early return at lines 25-27 performs no scanning). -/
theorem c5_determinism_cache_hit (exec : RegexEngine)
    (parse : String → Except String TSNode) (getFeature : String → Option WebFeature)
    (s : DetectorState) (document : TextDocument)
    (out : List EnhancedDetectedFeature) (s1 : DetectorState)
    (h : detectFeatures exec parse getFeature s document = some (out, s1)) :
    mapGet s1.cache (cacheKey document) = some out ∧
      detectFeatures exec parse getFeature s1 document = some (out, s1) := by
  have hstored : mapGet s1.cache (cacheKey document) = some out := by
    simp only [detectFeatures] at h
    cases hget : mapGet s.cache (cacheKey document) with
    | some cached =>
        simp only [hget, Option.some.injEq, Prod.mk.injEq] at h
        obtain ⟨hout, hs1⟩ := h
        subst hs1
        rw [hget, hout]
    | none =>
        simp only [hget] at h
        cases hr : detectWithRegex exec getFeature document.languageId document.text
            (getPatternsForLanguage document.languageId) s.cursors with
        | none => simp only [hr] at h; exact Option.noConfusion h
        | some pr =>
            obtain ⟨rf, cur2⟩ := pr
            simp only [hr, Option.some.injEq, Prod.mk.injEq] at h
            obtain ⟨hout, hs1⟩ := h
            subst hs1
            rw [← hout]
            exact storeResult_get_self s _ _ cur2 hget
  refine ⟨hstored, ?_⟩
  simp only [detectFeatures, hstored]

/-- C5 witness: a concrete first call followed by its cache-hit repeat. -/
theorem c5_determinism_cache_hit_witness :
    mapGet ([("u-1", [])] :
        List (String × List EnhancedDetectedFeature)) "u-1" = some [] ∧
      detectFeatures noMatchExec failParse emptyLookup ⟨[("u-1", [])], []⟩
        ⟨"u", 1, "plaintext", ""⟩ = some ([], ⟨[("u-1", [])], []⟩) :=
  c5_determinism_cache_hit noMatchExec failParse emptyLookup ⟨[], []⟩
    ⟨"u", 1, "plaintext", ""⟩ [] ⟨[("u-1", [])], []⟩ rfl

/-- C6: after a cache-miss insertion the capacity bound holds — a cache of
at most 10 entries still has at most 10 entries once the insertion (and
possible eviction) completes — and whenever the cache already holds at
least 10 entries before a miss, the oldest-inserted entry (the first key,
regardless of recent access) is evicted and the new entry appended. Each
entry is keyed by one (documentIdentity, version) pair, so the entry count
bounds the number of distinct documentIdentity values held. -/
theorem c6_capacity_eviction (exec : RegexEngine)
    (parse : String → Except String TSNode) (getFeature : String → Option WebFeature)
    (s : DetectorState) (document : TextDocument)
    (out : List EnhancedDetectedFeature) (s1 : DetectorState)
    (h : detectFeatures exec parse getFeature s document = some (out, s1)) :
    (s.cache.length ≤ 10 → s1.cache.length ≤ 10) ∧
    (mapGet s.cache (cacheKey document) = none → 10 ≤ s.cache.length →
      s1.cache = s.cache.tail ++ [(cacheKey document, out)]) := by
  simp only [detectFeatures] at h
  cases hget : mapGet s.cache (cacheKey document) with
  | some cached =>
      simp only [hget, Option.some.injEq, Prod.mk.injEq] at h
      obtain ⟨hout, hs1⟩ := h
      subst hs1
      constructor
      · exact fun hl => hl
      · intro hn
        exact absurd hn (by simp)
  | none =>
      simp only [hget] at h
      cases hr : detectWithRegex exec getFeature document.languageId document.text
          (getPatternsForLanguage document.languageId) s.cursors with
      | none => simp only [hr] at h; exact Option.noConfusion h
      | some pr =>
          obtain ⟨rf, cur2⟩ := pr
          simp only [hr, Option.some.injEq, Prod.mk.injEq] at h
          obtain ⟨hout, hs1⟩ := h
          subst hs1
          constructor
          · intro hl
            by_cases hsmall : s.cache.length < 10
            · rw [storeResult_cache_no_evict s _ _ cur2 hget hsmall]
              simp only [List.length_append, List.length_cons, List.length_nil]
              omega
            · have h10 : 10 ≤ s.cache.length := Nat.le_of_not_lt hsmall
              rw [storeResult_cache_evict s _ _ cur2 hget h10]
              simp only [List.length_append, List.length_cons, List.length_nil,
                List.length_tail]
              omega
          · intro _ h10
            rw [storeResult_cache_evict s _ _ cur2 hget h10, hout]

/-- C6 witness: a miss on a cache already at capacity 10 evicts the
oldest-inserted entry `"k0"` and appends the new one. -/
theorem c6_capacity_eviction_witness :
    (tenCache.length ≤ 10 → evictedCache.length ≤ 10) ∧
    (mapGet tenCache (cacheKey ⟨"u", 1, "plaintext", ""⟩) = none →
      10 ≤ tenCache.length →
      evictedCache = tenCache.tail ++ [(cacheKey ⟨"u", 1, "plaintext", ""⟩, [])]) :=
  c6_capacity_eviction noMatchExec failParse emptyLookup ⟨tenCache, []⟩
    ⟨"u", 1, "plaintext", ""⟩ [] ⟨evictedCache, []⟩ rfl

/-- C7 refutation: the cache key is `documentIdentity-version`, so running
`detectFeatures` on versions 1 and 2 of the same document `"u"` leaves the
cache simultaneously holding the entries `"u-1"` and `"u-2"` — two live
entries for the same documentIdentity, contradicting the claimed
invariant. -/
theorem c7_counterexample :
    detectFeatures noMatchExec failParse emptyLookup ⟨[], []⟩ ⟨"u", 1, "plaintext", ""⟩ =
      some ([], ⟨[("u-1", [])], []⟩) ∧
    detectFeatures noMatchExec failParse emptyLookup ⟨[("u-1", [])], []⟩
        ⟨"u", 2, "plaintext", ""⟩ =
      some ([], ⟨[("u-1", []), ("u-2", [])], []⟩) ∧
    cacheKey ⟨"u", 1, "plaintext", ""⟩ = "u-1" ∧
    cacheKey ⟨"u", 2, "plaintext", ""⟩ = "u-2" ∧
    ("u-1" : String) ≠ "u-2" :=
  ⟨rfl, rfl, rfl, rfl, by decide⟩

/-- C7 amended: the cache holds at most one live entry per cache key —
i.e. per (documentIdentity, version) pair: `detectFeatures` preserves
distinctness of the cache keys. Entries for several versions of the same
documentIdentity may coexist until capacity eviction reclaims the older
ones. -/
theorem c7_amended_unique_cache_keys (exec : RegexEngine)
    (parse : String → Except String TSNode) (getFeature : String → Option WebFeature)
    (s : DetectorState) (document : TextDocument)
    (out : List EnhancedDetectedFeature) (s1 : DetectorState)
    (hnodup : (s.cache.map Prod.fst).Nodup)
    (h : detectFeatures exec parse getFeature s document = some (out, s1)) :
    (s1.cache.map Prod.fst).Nodup := by
  simp only [detectFeatures] at h
  cases hget : mapGet s.cache (cacheKey document) with
  | some cached =>
      simp only [hget, Option.some.injEq, Prod.mk.injEq] at h
      obtain ⟨-, hs1⟩ := h
      subst hs1
      exact hnodup
  | none =>
      simp only [hget] at h
      cases hr : detectWithRegex exec getFeature document.languageId document.text
          (getPatternsForLanguage document.languageId) s.cursors with
      | none => simp only [hr] at h; exact Option.noConfusion h
      | some pr =>
          obtain ⟨rf, cur2⟩ := pr
          simp only [hr, Option.some.injEq, Prod.mk.injEq] at h
          obtain ⟨-, hs1⟩ := h
          subst hs1
          exact storeResult_nodup s _ _ cur2 hnodup

/-- C7 amended-claim witness: a concrete call keeps the cache keys
distinct. -/
theorem c7_amended_unique_cache_keys_witness :
    (([("u-1", [])] : List (String × List EnhancedDetectedFeature)).map
      Prod.fst).Nodup :=
  c7_amended_unique_cache_keys noMatchExec failParse emptyLookup ⟨[], []⟩
    ⟨"u", 1, "plaintext", ""⟩ [] ⟨[("u-1", [])], []⟩ (by simp) rfl

/-- C8: when parsing fails, the syntax matcher returns the empty result
(no partial syntax detections — the exception is caught, lines 133-135),
and on a cache miss `detectFeatures` degrades to exactly the text-only
pipeline for that document; the failure is non-fatal (the result is still
`some` whenever the text scan completes). -/
theorem c8_parse_failure_degrades (parse : String → Except String TSNode)
    (getFeature : String → Option WebFeature) (text : String)
    (patterns : List PatternInfo) (msg : String)
    (hp : parse text = Except.error msg) :
    detectWithAST parse getFeature text patterns = [] ∧
    ∀ (exec : RegexEngine) (s : DetectorState) (document : TextDocument),
      document.text = text → mapGet s.cache (cacheKey document) = none →
      detectFeatures exec parse getFeature s document =
        textOnlyDetect exec getFeature s document := by
  constructor
  · unfold detectWithAST
    rw [hp]
  · intro exec s document hdoc hget
    have hast : (if isTypeScriptLike document.languageId then
        detectWithAST parse getFeature document.text
          (getPatternsForLanguage document.languageId)
      else []) = [] := by
      by_cases hts : isTypeScriptLike document.languageId
      · rw [if_pos hts]
        unfold detectWithAST
        rw [hdoc, hp]
      · rw [if_neg hts]
    simp only [detectFeatures, textOnlyDetect, hget, hast, List.nil_append]

/-- C8 witness: a TypeScript document whose parse fails is analysed
text-only. -/
theorem c8_parse_failure_degrades_witness :
    detectWithAST failParse emptyLookup "await x"
      (getPatternsForLanguage "typescript") = [] ∧
    detectFeatures noMatchExec failParse emptyLookup ⟨[], []⟩
        ⟨"u", 1, "typescript", "await x"⟩ =
      textOnlyDetect noMatchExec emptyLookup ⟨[], []⟩
        ⟨"u", 1, "typescript", "await x"⟩ :=
  ⟨(c8_parse_failure_degrades failParse emptyLookup "await x"
      (getPatternsForLanguage "typescript") "parse failure" rfl).1,
   (c8_parse_failure_degrades failParse emptyLookup "await x"
      (getPatternsForLanguage "typescript") "parse failure" rfl).2
     noMatchExec ⟨[], []⟩ ⟨"u", 1, "typescript", "await x"⟩ rfl rfl⟩

/-- C9 (spec-modelled: the repository's `src/` has no `validate()`; the
validation is modelled from spec §4.1/§7): a rule set containing a
malformed rule never validates — startup fails fast, before any
per-document detection — while the actual registry validates cleanly, so
during detection the error is never reached. -/
theorem c9_registry_validation :
    (∀ (rules : List PatternInfo) (r : PatternInfo), r ∈ rules →
      ruleWellFormed r = false → validateRegistry rules ≠ Except.ok ()) ∧
    validateRegistry ENHANCED_WEB_PATTERNS = Except.ok () := by
  constructor
  · intro rules r hr hbad hok
    unfold validateRegistry at hok
    cases hfind : rules.find? (fun q => !ruleWellFormed q) with
    | some q =>
        simp only [hfind] at hok
        exact Except.noConfusion hok
    | none =>
        have hnone := List.find?_eq_none.mp hfind r hr
        rw [hbad] at hnone
        exact hnone rfl
  · rfl

/-- C9 witness: a rule with an empty regex source fails validation. -/
theorem c9_registry_validation_witness :
    validateRegistry [emptyPatternRule] ≠ Except.ok () :=
  c9_registry_validation.1 [emptyPatternRule] emptyPatternRule
    (List.mem_singleton.mpr rfl) rfl

/-- Helper: `validateContext` takes its default branch — returning the
rule's base confidence untouched — whenever the rule's featureId is none
of the three heuristic identifiers. -/
theorem validateContext_default (mtch lineText : String) (r : PatternInfo)
    (h1 : r.featureId ≠ "js-optional-chaining")
    (h2 : r.featureId ≠ "js-private-fields")
    (h3 : r.featureId ≠ "js-top-level-await") :
    validateContext mtch lineText r = r.confidence := by
  unfold validateContext
  split <;> simp_all

/-- C10: every registry rule with `contextRequired` set (only
`web-animations`) has a featureId outside the three special heuristic
cases, so `validateContext` returns its base confidence unchanged, and
that confidence is not below 0.5 — hence the below-0.5 discard in the
text matcher never fires for a registry rule. -/
theorem c10_context_default_branch (r : PatternInfo)
    (hr : r ∈ ENHANCED_WEB_PATTERNS) (hc : r.contextRequired = true) :
    (∀ mtch lineText, validateContext mtch lineText r = r.confidence) ∧
    ¬(r.confidence < (0.5 : ℚ)) := by
  have hall : ∀ p ∈ ENHANCED_WEB_PATTERNS, p.contextRequired = true →
      (p.featureId ≠ "js-optional-chaining" ∧ p.featureId ≠ "js-private-fields" ∧
        p.featureId ≠ "js-top-level-await") ∧ ¬(p.confidence < (0.5 : ℚ)) := by
    intro p hp
    fin_cases hp <;> intro hcp
    all_goals try (exact absurd hcp (by decide))
    exact ⟨by decide, by norm_num⟩
  obtain ⟨⟨h1, h2, h3⟩, h4⟩ := hall r hr hc
  exact ⟨fun mtch lineText => validateContext_default mtch lineText r h1 h2 h3, h4⟩

/-- C10 witness: the `web-animations` rule keeps its base confidence 0.7
under context validation and is never discarded. -/
theorem c10_context_default_branch_witness :
    validateContext ".animate(" "el.animate(kf)" webAnimationsRule =
      webAnimationsRule.confidence ∧
    ¬(webAnimationsRule.confidence < (0.5 : ℚ)) :=
  ⟨(c10_context_default_branch webAnimationsRule
      (List.get_mem ENHANCED_WEB_PATTERNS 21 (by decide)) rfl).1 ".animate(" "el.animate(kf)",
   (c10_context_default_branch webAnimationsRule
      (List.get_mem ENHANCED_WEB_PATTERNS 21 (by decide)) rfl).2⟩

end BaselineGuard
